import Mathlib

/-!
Verification of the drops.tf stats cache and identity-resolution layer.

The definitions below are a shallow embedding of the relevant parts of
src/data.rs and src/steam_id.rs.  The relational store is modelled as an
explicit database state (lists of rows for each table) together with a
per-query-site fault switch; a fetch-one query returns either a row, a
row-not-found signal, or a fault, mirroring the sqlx fetch_one outcomes.
Machine integers are modelled as Int (no arithmetic in the embedded code
can overflow: the code only compares and counts), 64-bit identifiers as
Fin (2 ^ 64), and SQL floating point columns as rationals.  A separate
model with an explicit NaN value is used for the claim about the
fallible comparator of the fuzzy-search sort.
-/

namespace DropsTf

/-- Values of the 64-bit unsigned integer type. -/
abbrev U64 := Fin (2 ^ 64)

/-- Embeds the SteamId newtype of src/steam_id.rs: a wrapper around a u64. -/
structure SteamId where
  val : U64
deriving DecidableEq

/-- Embeds the conversion From u64 for SteamId: SteamId(id). -/
def SteamId.fromNumeric (n : U64) : SteamId := ⟨n⟩

/-- Embeds the conversion From SteamId for u64: id.0. -/
def SteamId.numeric (id : SteamId) : U64 := id.val

/-- Helper to build concrete SteamId values from a numeral. -/
def sidOf (n : Nat) : SteamId := ⟨⟨n % 2 ^ 64, Nat.mod_lt n (by decide)⟩⟩

/-- Embeds the SearchResult struct of src/data.rs.  The f64 similarity
column is modelled as a rational. -/
structure SearchResult where
  steam_id : SteamId
  name : String
  count : Int
  sim : ℚ
deriving DecidableEq

/-- Embeds SearchResult::weight of src/data.rs: sim * 5.0 + count as f64. -/
def SearchResult.weight (r : SearchResult) : ℚ := r.sim * 5 + (r.count : ℚ)

/-- Stable descending insertion by a rational measure; one step of the model
of slice sort_by with the comparator b.weight().partial_cmp(a.weight()). -/
def insertDescBy {α : Type} (f : α → ℚ) (x : α) : List α → List α
  | [] => [x]
  | y :: ys => if f x < f y then y :: insertDescBy f x ys else x :: y :: ys

/-- Stable descending insertion sort by a rational measure; models the
stable slice sort of the Rust standard library with a descending-by-measure
comparator, and the ORDER BY column DESC clause of the leaderboard queries. -/
def sortDescBy {α : Type} (f : α → ℚ) : List α → List α
  | [] => []
  | x :: xs => insertDescBy f x (sortDescBy f xs)

/-- Embeds the de-duplication filter of DataSource::player_wildcard_search:
a HashSet of already seen ids, keeping only the first occurrence per id. -/
def dedupFirst : List SearchResult → List SteamId → List SearchResult
  | [], _ => []
  | p :: ps, found =>
    if p.steam_id ∈ found then dedupFirst ps found
    else p :: dedupFirst ps (p.steam_id :: found)

/-- First element of a list carrying the given id, if any. -/
def firstWith : List SearchResult → SteamId → Option SearchResult
  | [], _ => none
  | p :: ps, id => if p.steam_id = id then some p else firstWith ps id

/-- The pure post-processing of DataSource::player_wildcard_search applied
to the rows returned by the fuzzy query: sort descending by weight, then
keep only the first occurrence per steam id. -/
def player_wildcard_post (players : List SearchResult) : List SearchResult :=
  dedupFirst (sortDescBy SearchResult.weight players) []

/-- Outcome of a fetch-one database query in sqlx: a row, a row-not-found
error, or any other database fault. -/
inductive DbErr
  | rowNotFound
  | fault
deriving DecidableEq

/-- Error of the external vanity resolver service. -/
inductive ResolveErr
  | fault
deriving DecidableEq

/-- Embeds the DropsError enum of src/lib.rs (the variants reachable from
the embedded operations). -/
inductive DropsError
  | steamId
  | database (e : DbErr)
  | steam (e : ResolveErr)
  | notFound
  | userNotFound
deriving DecidableEq

/-- Row of the precomputed ranked_medic_stats view: stats plus the four
precomputed rank columns and the three derived metric columns the SQL
subqueries and ORDER BY clauses read. -/
structure RankedRow where
  steam_id : SteamId
  name : String
  drops : Int
  ubers : Int
  games : Int
  medic_time : Int
  drops_rank : Int
  dpu_rank : Int
  dps_rank : Int
  dpg_rank : Int
  dpu : ℚ
  dps : ℚ
  dpg : ℚ
deriving DecidableEq

/-- Row of the raw medic_stats table with its derived metric columns. -/
structure MedicRow where
  steam_id : SteamId
  drops : Int
  ubers : Int
  games : Int
  medic_time : Int
  dpu : ℚ
  dps : ℚ
  dpg : ℚ
deriving DecidableEq

/-- Row of the user_names table; the name column is nullable. -/
structure NameRow where
  steam_id : SteamId
  name : Option String
deriving DecidableEq

/-- Embeds the DropStats struct of src/data.rs. -/
structure DropStats where
  steam_id : SteamId
  name : String
  drops : Int
  ubers : Int
  games : Int
  medic_time : Int
  drops_rank : Int
  dpu_rank : Int
  dps_rank : Int
  dpg_rank : Int
deriving DecidableEq

/-- Embeds the TopStats struct of src/data.rs. -/
structure TopStats where
  steam_id : SteamId
  name : String
  drops : Int
  ubers : Int
  games : Int
  medic_time : Int
deriving DecidableEq

/-- Embeds the TopOrder enum of src/data.rs. -/
inductive TopOrder
  | Drops
  | Dps
  | Dpg
  | Dpu
deriving DecidableEq

/-- The query sites of src/data.rs at which the store can fault. -/
inductive QuerySite
  | rankedStats
  | rawStats
  | userName
  | medicNames
  | topStats
  | vanitySelect
  | vanityInsert
deriving DecidableEq

/-- The database state: one list of rows per table, the rows the fuzzy
trigram query would return for a given input (the regex and trigram
matching happen inside Postgres and are modelled as an oracle), and a
fault switch per query site. -/
structure Db where
  ranked : List RankedRow
  medicStats : List MedicRow
  userNames : List NameRow
  vanityUrls : List (String × SteamId)
  medicNamesRows : String → List SearchResult
  faults : QuerySite → Bool

/-- Semantics of a fetch-one query at a given site: a fault if the store
faults there, otherwise the row or row-not-found. -/
def fetchOne {α : Type} (db : Db) (site : QuerySite) (row : Option α) : Except DbErr α :=
  if db.faults site then .error .fault
  else match row with
    | some r => .ok r
    | none => .error .rowNotFound

/-- First row of ranked_medic_stats with the given id. -/
def findRanked : List RankedRow → SteamId → Option RankedRow
  | [], _ => none
  | r :: rs, id => if r.steam_id = id then some r else findRanked rs id

/-- First row of medic_stats with the given id. -/
def findMedic : List MedicRow → SteamId → Option MedicRow
  | [], _ => none
  | r :: rs, id => if r.steam_id = id then some r else findMedic rs id

/-- First row of user_names with the given id. -/
def findName : List NameRow → SteamId → Option NameRow
  | [], _ => none
  | r :: rs, id => if r.steam_id = id then some r else findName rs id

/-- First vanity_urls row with the given url token. -/
def findVanity : List (String × SteamId) → String → Option SteamId
  | [], _ => none
  | r :: rs, url => if r.1 = url then some r.2 else findVanity rs url

/-- Semantics of the cheap query of DataSource::stats_for_user: fetch one
row of the precomputed ranked_medic_stats view. -/
def rankedStatsQuery (db : Db) (id : SteamId) : Except DbErr DropStats :=
  fetchOne db .rankedStats ((findRanked db.ranked id).map fun r =>
    { steam_id := r.steam_id, name := r.name, drops := r.drops, ubers := r.ubers,
      games := r.games, medic_time := r.medic_time, drops_rank := r.drops_rank,
      dpu_rank := r.dpu_rank, dps_rank := r.dps_rank, dpg_rank := r.dpg_rank })

/-- Number of ranked_medic_stats rows satisfying a predicate; the COUNT
aggregate of the correlated rank subqueries. -/
def rankCount (ranked : List RankedRow) (p : RankedRow → Bool) : Int :=
  ((ranked.filter p).length : Int)

/-- The drops rank subquery of the expensive path: COUNT of view rows with
more drops than the subject and more than 100 drops, plus one. -/
def dropsRankOf (ranked : List RankedRow) (v : Int) : Int :=
  rankCount ranked (fun m2 => decide (v < m2.drops) && decide (100 < m2.drops)) + 1

/-- The drops-per-uber rank subquery of the expensive path. -/
def dpuRankOf (ranked : List RankedRow) (v : ℚ) : Int :=
  rankCount ranked (fun m2 => decide (v < m2.dpu) && decide (100 < m2.drops)) + 1

/-- The drops-per-second rank subquery of the expensive path. -/
def dpsRankOf (ranked : List RankedRow) (v : ℚ) : Int :=
  rankCount ranked (fun m2 => decide (v < m2.dps) && decide (100 < m2.drops)) + 1

/-- The drops-per-game rank subquery of the expensive path. -/
def dpgRankOf (ranked : List RankedRow) (v : ℚ) : Int :=
  rankCount ranked (fun m2 => decide (v < m2.dpg) && decide (100 < m2.drops)) + 1

/-- Semantics of the expensive query of DataSource::stats_for_user: join
the medic_stats row of the subject with its user_names row (a row whose
stored name is NULL cannot satisfy the non-null name projection and is
treated as absent) and compute the four ranks by the correlated counting
subqueries over ranked_medic_stats. -/
def rawStatsQuery (db : Db) (id : SteamId) : Except DbErr DropStats :=
  fetchOne db .rawStats (
    (findMedic db.medicStats id).bind fun m =>
      (findName db.userNames id).bind fun n =>
        n.name.map fun nm =>
          { steam_id := m.steam_id, name := nm, drops := m.drops, ubers := m.ubers,
            games := m.games, medic_time := m.medic_time,
            drops_rank := dropsRankOf db.ranked m.drops,
            dpu_rank := dpuRankOf db.ranked m.dpu,
            dps_rank := dpsRankOf db.ranked m.dps,
            dpg_rank := dpgRankOf db.ranked m.dpg })

/-- Embeds the compute closure of DataSource::stats_for_user (the body run
by the player cache on a miss): if let Ok(result) = cheap query { Ok }
else { expensive query }.  Note that the if-let treats every error of the
cheap query alike, faults included. -/
def stats_for_user (db : Db) (id : SteamId) : Except DbErr DropStats :=
  match rankedStatsQuery db id with
  | .ok r => .ok r
  | .error _ => rawStatsQuery db id

/-- Semantics of the fetch-one query of DataSource::get_user_name. -/
def userNameQuery (db : Db) (id : SteamId) : Except DbErr NameRow :=
  fetchOne db .userName (findName db.userNames id)

/-- Embeds DataSource::get_user_name: fetch one user_names row, propagate
any error with the question-mark operator, and return the nullable name. -/
def get_user_name (db : Db) (id : SteamId) : Except DropsError (Option String) :=
  match userNameQuery db id with
  | .error e => .error (.database e)
  | .ok row => .ok row.name

/-- Semantics of the fuzzy fetch-all query of
DataSource::player_wildcard_search: the oracle rows, or a fault. -/
def medicNamesQuery (db : Db) (s : String) : Except DbErr (List SearchResult) :=
  if db.faults .medicNames then .error .fault else .ok (db.medicNamesRows s)

/-- Embeds DataSource::player_wildcard_search: run the fuzzy query, sort
descending by weight, de-duplicate keeping the first occurrence per id. -/
def player_wildcard_search (db : Db) (s : String) : Except DropsError (List SearchResult) :=
  match medicNamesQuery db s with
  | .error e => .error (.database e)
  | .ok players => .ok (player_wildcard_post players)

/-- Embeds DataSource::player_search.  The steam id text parsing is done
by the external steamid-ng crate and is passed in as an oracle.  If the
text parses and the exact name row carries a name, a single synthetic
result is returned; errors of the exact lookup propagate through the
question-mark operator; a parse failure or a NULL stored name falls
through to the wildcard search. -/
def player_search (parse : String → Option SteamId) (db : Db) (s : String) :
    Except DropsError (List SearchResult) :=
  match parse s with
  | some id =>
    match get_user_name db id with
    | .error e => .error e
    | .ok (some name) => .ok [{ steam_id := id, name := name, count := 1, sim := 1 }]
    | .ok none => player_wildcard_search db s
  | none => player_wildcard_search db s

/-- The metric column each TopOrder sorts by in DataSource::top_stats. -/
def topMetric : TopOrder → RankedRow → ℚ
  | .Drops, r => (r.drops : ℚ)
  | .Dps, r => r.dps
  | .Dpg, r => r.dpg
  | .Dpu, r => r.dpu

/-- Projection of a view row to the TopStats columns the query selects. -/
def toTopStats (r : RankedRow) : TopStats :=
  { steam_id := r.steam_id, name := r.name, drops := r.drops, ubers := r.ubers,
    games := r.games, medic_time := r.medic_time }

/-- Semantics of one leaderboard fetch-all query: ORDER BY the metric
column DESC LIMIT 25 over ranked_medic_stats, or a fault. -/
def topQueryOnce (db : Db) (m : RankedRow → ℚ) : Except DbErr (List TopStats) :=
  if db.faults .topStats then .error .fault
  else .ok (((sortDescBy m db.ranked).take 25).map toTopStats)

/-- Embeds the compute closure of DataSource::top_stats run by the top
cache on a miss: one match with four arms, each issuing exactly one query;
the second component counts the queries the closure issues. -/
def top_stats_query (db : Db) (order : TopOrder) : Except DbErr (List TopStats) × Nat :=
  match order with
  | .Drops => (topQueryOnce db (topMetric .Drops), 1)
  | .Dps => (topQueryOnce db (topMetric .Dps), 1)
  | .Dpu => (topQueryOnce db (topMetric .Dpu), 1)
  | .Dpg => (topQueryOnce db (topMetric .Dpg), 1)

/-- The key under which DataSource::top_stats caches an ordering: the
top cache is keyed by the TopOrder value itself. -/
def topCacheKey (o : TopOrder) : TopOrder := o

/-- Semantics of the vanity_urls lookup query of
DataSource::resolve_vanity_url. -/
def vanitySelectQuery (db : Db) (url : String) : Except DbErr SteamId :=
  fetchOne db .vanitySelect (findVanity db.vanityUrls url)

/-- Result of one call of DataSource::resolve_vanity_url: the returned
value, the database state after the call, and how often the external
resolver was invoked. -/
structure VanityOutcome where
  result : Except DropsError (Option SteamId)
  db : Db
  resolverCalls : Nat

/-- Embeds DataSource::resolve_vanity_url: if let Ok(row) = lookup
{ return it } else { call the external resolver; on a hit insert the
mapping and return it, on a miss return None, propagating resolver and
insert errors }.  The if-let treats every lookup error alike, faults
included. -/
def resolve_vanity_url (db : Db) (resolver : String → Except ResolveErr (Option SteamId))
    (url : String) : VanityOutcome :=
  match vanitySelectQuery db url with
  | .ok id => ⟨.ok (some id), db, 0⟩
  | .error _ =>
    match resolver url with
    | .error e => ⟨.error (.steam e), db, 1⟩
    | .ok (some id) =>
      if db.faults .vanityInsert then ⟨.error (.database .fault), db, 1⟩
      else ⟨.ok (some id), { db with vanityUrls := db.vanityUrls ++ [(url, id)] }, 1⟩
    | .ok none => ⟨.ok none, db, 1⟩

/-- Values of the f64 type as used by the fuzzy-search sort: a rational,
or the NaN value (modelled as none).  The embedded code never divides and
never overflows, so NaN propagation and comparison failure are the only
float behaviours the sort claim depends on. -/
abbrev FVal := Option ℚ

/-- Float multiplication restricted to the values above: NaN propagates. -/
def fmul : FVal → FVal → FVal
  | some a, some b => some (a * b)
  | _, _ => none

/-- Float addition restricted to the values above: NaN propagates. -/
def fadd : FVal → FVal → FVal
  | some a, some b => some (a + b)
  | _, _ => none

/-- A fuzzy-search candidate row whose similarity column may be NaN. -/
structure SearchRowF where
  steam_id : SteamId
  name : String
  count : Int
  sim : FVal
deriving DecidableEq

/-- The weight computation sim * 5.0 + count as f64 on the NaN-extended
values. -/
def SearchRowF.weightF (r : SearchRowF) : FVal := fadd (fmul r.sim (some 5)) (some (r.count : ℚ))

/-- Models f64 partial_cmp: defined on two non-NaN values, undefined (none)
as soon as either side is NaN. -/
def pcmpF : FVal → FVal → Option Ordering
  | some a, some b => some (if a < b then .lt else if b < a then .gt else .eq)
  | _, _ => none

/-- The sort_by comparator of DataSource::player_wildcard_search on the
pair (a, b): b.weight().partial_cmp(a.weight()); its unwrap panics
exactly when the comparison is none. -/
def cmpRows (a b : SearchRowF) : Option Ordering := pcmpF b.weightF a.weightF

/-- One insertion step of the sort with the fallible comparator; none
models the panic of the unwrap when the comparator is called on a pair
with a NaN weight. -/
def finsertDesc (x : SearchRowF) : List SearchRowF → Option (List SearchRowF)
  | [] => some [x]
  | y :: ys =>
    match cmpRows x y with
    | none => none
    | some ord =>
      if ord = .gt then (finsertDesc x ys).map (fun t => y :: t) else some (x :: y :: ys)

/-- Stable insertion-sort model of the slice sort_by call with the
fallible comparator: none models a panic of the unwrap. -/
def fsortDesc : List SearchRowF → Option (List SearchRowF)
  | [] => some []
  | x :: xs => (fsortDesc xs).bind (finsertDesc x)

instance {ε α : Type} [DecidableEq ε] [DecidableEq α] : DecidableEq (Except ε α) := fun a b =>
  match a, b with
  | .ok x, .ok y =>
    if h : x = y then .isTrue (by rw [h]) else .isFalse (fun hh => by cases hh; exact h rfl)
  | .error x, .error y =>
    if h : x = y then .isTrue (by rw [h]) else .isFalse (fun hh => by cases hh; exact h rfl)
  | .ok _, .error _ => .isFalse (fun hh => by cases hh)
  | .error _, .ok _ => .isFalse (fun hh => by cases hh)

/-! Lemmas about the stable descending insertion sort. -/

theorem insertDescBy_perm {α : Type} (f : α → ℚ) (x : α) :
    ∀ l : List α, List.Perm (insertDescBy f x l) (x :: l) := by
  intro l
  induction l with
  | nil => exact List.Perm.refl _
  | cons y ys ih =>
    unfold insertDescBy
    by_cases h : f x < f y
    · rw [if_pos h]
      exact (ih.cons y).trans (List.Perm.swap x y ys)
    · rw [if_neg h]

theorem sortDescBy_perm {α : Type} (f : α → ℚ) :
    ∀ l : List α, List.Perm (sortDescBy f l) l := by
  intro l
  induction l with
  | nil => exact List.Perm.refl _
  | cons x xs ih =>
    unfold sortDescBy
    exact (insertDescBy_perm f x (sortDescBy f xs)).trans (ih.cons x)

theorem insertDescBy_pairwise {α : Type} (f : α → ℚ) (x : α) (l : List α)
    (h : l.Pairwise (fun a b => f b ≤ f a)) :
    (insertDescBy f x l).Pairwise (fun a b => f b ≤ f a) := by
  induction l with
  | nil => simp [insertDescBy]
  | cons y ys ih =>
    unfold insertDescBy
    rw [List.pairwise_cons] at h
    by_cases hxy : f x < f y
    · rw [if_pos hxy]
      rw [List.pairwise_cons]
      refine ⟨?_, ih h.2⟩
      intro z hz
      rcases List.mem_cons.mp ((insertDescBy_perm f x ys).mem_iff.mp hz) with rfl | hz
      · exact le_of_lt hxy
      · exact h.1 z hz
    · rw [if_neg hxy]
      rw [List.pairwise_cons]
      refine ⟨?_, List.pairwise_cons.mpr h⟩
      intro z hz
      rcases List.mem_cons.mp hz with rfl | hz
      · exact not_lt.mp hxy
      · exact le_trans (h.1 z hz) (not_lt.mp hxy)

theorem sortDescBy_pairwise {α : Type} (f : α → ℚ) :
    ∀ l : List α, (sortDescBy f l).Pairwise (fun a b => f b ≤ f a) := by
  intro l
  induction l with
  | nil => simp [sortDescBy]
  | cons x xs ih =>
    unfold sortDescBy
    exact insertDescBy_pairwise f x _ ih

/-! Lemmas about the first-occurrence de-duplication filter. -/

theorem dedupFirst_sublist : ∀ (l : List SearchResult) (found : List SteamId),
    (dedupFirst l found).Sublist l := by
  intro l
  induction l with
  | nil => intro found; exact List.Sublist.refl _
  | cons p ps ih =>
    intro found
    unfold dedupFirst
    by_cases h : p.steam_id ∈ found
    · rw [if_pos h]; exact (ih found).cons p
    · rw [if_neg h]; exact (ih _).cons₂ p

theorem dedupFirst_mem : ∀ (l : List SearchResult) (found : List SteamId) (r : SearchResult),
    r ∈ dedupFirst l found → r.steam_id ∉ found ∧ firstWith l r.steam_id = some r := by
  intro l
  induction l with
  | nil => intro found r hr; simp [dedupFirst] at hr
  | cons p ps ih =>
    intro found r hr
    unfold dedupFirst at hr
    by_cases h : p.steam_id ∈ found
    · rw [if_pos h] at hr
      obtain ⟨hnf, hfw⟩ := ih found r hr
      have hne : p.steam_id ≠ r.steam_id := fun he => hnf (he ▸ h)
      refine ⟨hnf, ?_⟩
      unfold firstWith
      rw [if_neg hne]
      exact hfw
    · rw [if_neg h] at hr
      rcases List.mem_cons.mp hr with rfl | hr
      · exact ⟨h, by unfold firstWith; rw [if_pos rfl]⟩
      · obtain ⟨hnf, hfw⟩ := ih _ r hr
        have hne : p.steam_id ≠ r.steam_id :=
          fun he => hnf (by rw [← he]; exact List.mem_cons_self _ _)
        refine ⟨fun hin => hnf (List.mem_cons_of_mem _ hin), ?_⟩
        unfold firstWith
        rw [if_neg hne]
        exact hfw

theorem dedupFirst_nodup : ∀ (l : List SearchResult) (found : List SteamId),
    ((dedupFirst l found).map (fun r => r.steam_id)).Nodup := by
  intro l
  induction l with
  | nil => intro found; simp [dedupFirst]
  | cons p ps ih =>
    intro found
    unfold dedupFirst
    by_cases h : p.steam_id ∈ found
    · rw [if_pos h]; exact ih found
    · rw [if_neg h]
      simp only [List.map_cons, List.nodup_cons]
      refine ⟨?_, ih _⟩
      intro hmem
      rcases List.mem_map.mp hmem with ⟨q, hq, hqe⟩
      exact (dedupFirst_mem _ _ _ hq).1 (by rw [hqe]; exact List.mem_cons_self _ _)

theorem dedupFirst_covers : ∀ (l : List SearchResult) (found : List SteamId) (r : SearchResult),
    r ∈ l → r.steam_id ∈ found ∨ ∃ q ∈ dedupFirst l found, q.steam_id = r.steam_id := by
  intro l
  induction l with
  | nil => intro found r hr; exact absurd hr (List.not_mem_nil r)
  | cons p ps ih =>
    intro found r hr
    unfold dedupFirst
    by_cases h : p.steam_id ∈ found
    · rw [if_pos h]
      rcases List.mem_cons.mp hr with rfl | hr
      · exact .inl h
      · exact ih found r hr
    · rw [if_neg h]
      rcases List.mem_cons.mp hr with rfl | hr
      · exact .inr ⟨_, List.mem_cons_self _ _, rfl⟩
      · rcases ih (p.steam_id :: found) r hr with hin | ⟨q, hq, hqe⟩
        · rcases List.mem_cons.mp hin with heq | hin
          · exact .inr ⟨_, List.mem_cons_self _ _, heq.symm⟩
          · exact .inl hin
        · exact .inr ⟨q, List.mem_cons_of_mem _ hq, hqe⟩

/-! Lemmas about the NaN-extended model of the fallible-comparator sort. -/

theorem pcmpF_none_right (w : FVal) : pcmpF w none = none := by cases w <;> rfl

theorem weightF_none_iff (r : SearchRowF) : r.weightF = none ↔ r.sim = none := by
  cases h : r.sim <;> simp [SearchRowF.weightF, fmul, fadd, h]

theorem finsertDesc_nan_self (x h : SearchRowF) (t : List SearchRowF) (hx : x.weightF = none) :
    finsertDesc x (h :: t) = none := by
  unfold finsertDesc
  have hc : cmpRows x h = none := by unfold cmpRows; rw [hx]; exact pcmpF_none_right _
  rw [hc]

theorem finsertDesc_nan_head (x h : SearchRowF) (t : List SearchRowF) (hh : h.weightF = none) :
    finsertDesc x (h :: t) = none := by
  unfold finsertDesc
  have hc : cmpRows x h = none := by unfold cmpRows; rw [hh]; rfl
  rw [hc]

theorem finsertDesc_mem : ∀ (l l2 : List SearchRowF) (x : SearchRowF),
    finsertDesc x l = some l2 → ∀ z ∈ l2, z = x ∨ z ∈ l := by
  intro l
  induction l with
  | nil =>
    intro l2 x h z hz
    unfold finsertDesc at h
    injection h with h2
    subst h2
    rcases List.mem_cons.mp hz with rfl | hz2
    · exact .inl rfl
    · exact absurd hz2 (List.not_mem_nil z)
  | cons y ys ih =>
    intro l2 x h z hz
    unfold finsertDesc at h
    cases hc : cmpRows x y with
    | none => rw [hc] at h; cases h
    | some ord =>
      rw [hc] at h
      dsimp only at h
      by_cases hgt : ord = .gt
      · rw [if_pos hgt] at h
        rcases Option.map_eq_some'.mp h with ⟨t, ht, rfl⟩
        rcases List.mem_cons.mp hz with rfl | hz2
        · exact .inr (List.mem_cons_self _ _)
        · rcases ih t x ht z hz2 with h1 | h2
          · exact .inl h1
          · exact .inr (List.mem_cons_of_mem _ h2)
      · rw [if_neg hgt] at h
        injection h with h2
        subst h2
        rcases List.mem_cons.mp hz with rfl | hz2
        · exact .inl rfl
        · exact .inr hz2

theorem finsertDesc_length : ∀ (l l2 : List SearchRowF) (x : SearchRowF),
    finsertDesc x l = some l2 → l2.length = l.length + 1 := by
  intro l
  induction l with
  | nil =>
    intro l2 x h
    unfold finsertDesc at h
    injection h with h2
    subst h2
    rfl
  | cons y ys ih =>
    intro l2 x h
    unfold finsertDesc at h
    cases hc : cmpRows x y with
    | none => rw [hc] at h; cases h
    | some ord =>
      rw [hc] at h
      dsimp only at h
      by_cases hgt : ord = .gt
      · rw [if_pos hgt] at h
        rcases Option.map_eq_some'.mp h with ⟨t, ht, rfl⟩
        simp only [List.length_cons, ih t x ht]
      · rw [if_neg hgt] at h
        injection h with h2
        subst h2
        rfl

theorem finsertDesc_total : ∀ (l : List SearchRowF) (x : SearchRowF),
    x.weightF ≠ none → (∀ y ∈ l, y.weightF ≠ none) → ∃ l2, finsertDesc x l = some l2 := by
  intro l
  induction l with
  | nil => intro x _ _; exact ⟨[x], rfl⟩
  | cons y ys ih =>
    intro x hx hall
    obtain ⟨a, ha⟩ := Option.ne_none_iff_exists.mp hx
    obtain ⟨b, hb⟩ := Option.ne_none_iff_exists.mp (hall y (List.mem_cons_self _ _))
    have hc : cmpRows x y =
        some (if b < a then Ordering.lt else if a < b then Ordering.gt else Ordering.eq) := by
      unfold cmpRows
      rw [← ha, ← hb]
      rfl
    by_cases hgt : (if b < a then Ordering.lt else if a < b then Ordering.gt else Ordering.eq) =
        Ordering.gt
    · obtain ⟨t, ht⟩ := ih x hx (fun z hz => hall z (List.mem_cons_of_mem _ hz))
      refine ⟨y :: t, ?_⟩
      unfold finsertDesc
      rw [hc]
      dsimp only
      rw [if_pos hgt, ht]
      rfl
    · refine ⟨x :: y :: ys, ?_⟩
      unfold finsertDesc
      rw [hc]
      dsimp only
      rw [if_neg hgt]

theorem fsortDesc_mem : ∀ (l l2 : List SearchRowF),
    fsortDesc l = some l2 → ∀ z ∈ l2, z ∈ l := by
  intro l
  induction l with
  | nil =>
    intro l2 h z hz
    unfold fsortDesc at h
    injection h with h2
    subst h2
    exact absurd hz (List.not_mem_nil z)
  | cons x xs ih =>
    intro l2 h z hz
    unfold fsortDesc at h
    cases hs : fsortDesc xs with
    | none => rw [hs] at h; cases h
    | some t =>
      rw [hs] at h
      change finsertDesc x t = some l2 at h
      rcases finsertDesc_mem t l2 x h z hz with rfl | hzt
      · exact List.mem_cons_self _ _
      · exact List.mem_cons_of_mem _ (ih t hs z hzt)

theorem fsortDesc_length : ∀ (l l2 : List SearchRowF),
    fsortDesc l = some l2 → l2.length = l.length := by
  intro l
  induction l with
  | nil =>
    intro l2 h
    unfold fsortDesc at h
    injection h with h2
    subst h2
    rfl
  | cons x xs ih =>
    intro l2 h
    unfold fsortDesc at h
    cases hs : fsortDesc xs with
    | none => rw [hs] at h; cases h
    | some t =>
      rw [hs] at h
      change finsertDesc x t = some l2 at h
      rw [finsertDesc_length t l2 x h, ih t hs]
      rfl

theorem fsortDesc_total : ∀ (l : List SearchRowF),
    (∀ y ∈ l, y.weightF ≠ none) → ∃ l2, fsortDesc l = some l2 := by
  intro l
  induction l with
  | nil => intro _; exact ⟨[], rfl⟩
  | cons x xs ih =>
    intro hall
    obtain ⟨t, ht⟩ := ih (fun z hz => hall z (List.mem_cons_of_mem _ hz))
    have htmem : ∀ z ∈ t, z.weightF ≠ none :=
      fun z hz => hall z (List.mem_cons_of_mem x (fsortDesc_mem xs t ht z hz))
    obtain ⟨l2, hl2⟩ := finsertDesc_total t x (hall x (List.mem_cons_self _ _)) htmem
    refine ⟨l2, ?_⟩
    unfold fsortDesc
    rw [ht]
    exact hl2

theorem fsortDesc_nan : ∀ (l : List SearchRowF), 2 ≤ l.length →
    (∃ r ∈ l, r.weightF = none) → fsortDesc l = none := by
  intro l
  induction l with
  | nil => intro h; simp at h
  | cons x xs ih =>
    rintro hlen ⟨r, hr, hnan⟩
    unfold fsortDesc
    rcases List.mem_cons.mp hr with rfl | hrx
    · cases hs : fsortDesc xs with
      | none => rfl
      | some t =>
        have hlt : t.length = xs.length := fsortDesc_length xs t hs
        have h1 : 1 ≤ xs.length := by simp only [List.length_cons] at hlen; omega
        cases t with
        | nil => simp only [List.length_nil] at hlt; exfalso; omega
        | cons hh ts => exact finsertDesc_nan_self _ hh ts hnan
    · rcases Nat.lt_or_ge xs.length 2 with h2 | h2
      · cases xs with
        | nil => exact absurd hrx (List.not_mem_nil r)
        | cons z zs =>
          cases zs with
          | nil =>
            have hrz : r = z := by simpa using hrx
            subst hrz
            exact finsertDesc_nan_head x r [] hnan
          | cons w ws => simp only [List.length_cons] at h2; omega
      · rw [ih h2 ⟨r, hrx, hnan⟩]
        rfl

/-! Claim theorems. -/

/-- Claim C9: the numeric mapping of the identity type is a total bijection
with the 64-bit integers: converting a u64 to a SteamId and back is the
identity, and converting a SteamId to a u64 and back is the identity. -/
theorem C9_numeric_bijection :
    (∀ n : U64, (SteamId.fromNumeric n).numeric = n) ∧
    (∀ id : SteamId, SteamId.fromNumeric id.numeric = id) :=
  ⟨fun _ => rfl, fun _ => rfl⟩

/-- The first candidate of the search de-duplication test vector:
id 1, name Foo, count 5, similarity 0.9. -/
def c5a : SearchResult :=
  { steam_id := sidOf 1, name := "Foo", count := 5, sim := Rat.divInt 9 10 }

/-- The second candidate of the search de-duplication test vector:
id 1, name foo, count 1, similarity 0.95. -/
def c5b : SearchResult :=
  { steam_id := sidOf 1, name := "foo", count := 1, sim := Rat.divInt 19 20 }

/-- The third candidate of the search de-duplication test vector:
id 2, name Foobar, count 100, similarity 0.5. -/
def c5c : SearchResult :=
  { steam_id := sidOf 2, name := "Foobar", count := 100, sim := Rat.divInt 1 2 }

/-- Claim C5 is false as stated: the weight of the third candidate
(similarity 0.5, count 100) is 0.5 * 5 + 100 = 102.5, not the 52.5 the
claim asserts. -/
theorem C5_counterexample :
    c5c.weight = Rat.divInt 205 2 ∧ c5c.weight ≠ Rat.divInt 105 2 := by
  with_unfolding_all decide

/-- Claim C5 amended: on the candidate list of the claim the weights are
9.5, 5.75 and 102.5; sorting descending by weight yields the id-2 row then
the two id-1 rows (Foo before foo), and de-duplication by identity keeping
the first occurrence yields the id-2 row then id-1 Foo. -/
theorem C5_amended :
    c5a.weight = Rat.divInt 19 2 ∧
    c5b.weight = Rat.divInt 23 4 ∧
    c5c.weight = Rat.divInt 205 2 ∧
    sortDescBy SearchResult.weight [c5a, c5b, c5c] = [c5c, c5a, c5b] ∧
    player_wildcard_post [c5a, c5b, c5c] = [c5c, c5a] := by
  with_unfolding_all decide

/-- Claim C6: for every candidate list the wildcard-search post-processing
sorts by descending weight (a permutation of the input that is pairwise
sorted) and then removes every candidate whose identity already appeared
earlier in the sorted order: the result is a sublist of the sorted list
(relative order preserved), its identities appear exactly once, each kept
entry is the first occurrence of its identity in the sorted order, and
every identity of the input is represented. -/
theorem C6_search_pipeline (l : List SearchResult) :
    List.Perm (sortDescBy SearchResult.weight l) l ∧
    (sortDescBy SearchResult.weight l).Pairwise (fun a b => b.weight ≤ a.weight) ∧
    (player_wildcard_post l).Sublist (sortDescBy SearchResult.weight l) ∧
    ((player_wildcard_post l).map (fun r => r.steam_id)).Nodup ∧
    (∀ r ∈ player_wildcard_post l,
      firstWith (sortDescBy SearchResult.weight l) r.steam_id = some r) ∧
    (∀ r ∈ sortDescBy SearchResult.weight l,
      ∃ q ∈ player_wildcard_post l, q.steam_id = r.steam_id) := by
  refine ⟨sortDescBy_perm _ l, sortDescBy_pairwise _ l, dedupFirst_sublist _ _,
    dedupFirst_nodup _ _, ?_, ?_⟩
  · intro r hr
    exact (dedupFirst_mem _ _ _ hr).2
  · intro r hr
    rcases dedupFirst_covers _ [] r hr with hin | h
    · exact absurd hin (List.not_mem_nil _)
    · exact h

/-- Candidate used by the C6 witness: id 3, count 2. -/
def c6a : SearchResult := { steam_id := sidOf 3, name := "A", count := 2, sim := 1 }

/-- Candidate used by the C6 witness: id 3, count 1. -/
def c6b : SearchResult := { steam_id := sidOf 3, name := "B", count := 1, sim := 1 }

/-- Witness for C6 at a concrete list: the kept entry of the de-duplicated
result is the first occurrence of its identity in the sorted order. -/
theorem C6_witness :
    firstWith (sortDescBy SearchResult.weight [c6a, c6b]) c6a.steam_id = some c6a :=
  (C6_search_pipeline [c6a, c6b]).2.2.2.2.1 c6a (by with_unfolding_all decide)

/-- Candidate with a NaN similarity used by the C10 counterexample. -/
def cNaN : SearchRowF := { steam_id := sidOf 4, name := "n", count := 3, sim := none }

/-- Claim C10 is false as stated: on a singleton candidate list whose only
weight is NaN the sort makes no comparator call at all, so the unwrap does
not panic and the sort completes. -/
theorem C10_counterexample :
    cNaN.weightF = none ∧ fsortDesc [cNaN] = some [cNaN] := ⟨rfl, rfl⟩

/-- Claim C10 amended: if every candidate similarity is non-NaN the sort
completes without panicking; a NaN weight makes the sort panic only when
the list has at least two candidates (with fewer, the comparator is never
called). -/
theorem C10_amended :
    (∀ l : List SearchRowF, (∀ r ∈ l, r.sim ≠ none) → ∃ l2, fsortDesc l = some l2) ∧
    (∀ l : List SearchRowF, 2 ≤ l.length → (∃ r ∈ l, r.weightF = none) → fsortDesc l = none) := by
  constructor
  · intro l hall
    exact fsortDesc_total l (fun y hy hw => hall y hy ((weightF_none_iff y).mp hw))
  · intro l hlen hex
    exact fsortDesc_nan l hlen hex

/-- Candidate with a non-NaN similarity used by the C10 witness. -/
def cOk : SearchRowF := { steam_id := sidOf 5, name := "k", count := 2, sim := some 1 }

/-- Witness for C10 at concrete lists: an all-non-NaN list sorts, and a
two-element list containing a NaN weight panics. -/
theorem C10_witness :
    (∃ l2, fsortDesc [cOk] = some l2) ∧ fsortDesc [cOk, cNaN] = none :=
  ⟨C10_amended.1 [cOk] (by with_unfolding_all decide),
   C10_amended.2 [cOk, cNaN] (by decide) (by with_unfolding_all decide)⟩

/-- Claim C4: when the cheap precomputed-view row is absent but the raw
stats row (joined with a named user_names row) exists, stats_for_user
returns the expensive-path result whose four rank fields each equal one
plus the count of view rows whose corresponding metric strictly exceeds
the subject value and whose drop count exceeds 100; and the rank value
depends only on the metric value, so equal metrics receive equal ranks. -/
theorem C4_expensive_rank_formula (db : Db) (id : SteamId) (m : MedicRow) (n : NameRow)
    (nm : String)
    (hc : db.faults .rankedStats = false)
    (he : db.faults .rawStats = false)
    (habs : findRanked db.ranked id = none)
    (hm : findMedic db.medicStats id = some m)
    (hn : findName db.userNames id = some n)
    (hnm : n.name = some nm) :
    stats_for_user db id = .ok
      { steam_id := m.steam_id, name := nm, drops := m.drops, ubers := m.ubers,
        games := m.games, medic_time := m.medic_time,
        drops_rank :=
          ((db.ranked.filter fun m2 =>
            decide (m.drops < m2.drops ∧ 100 < m2.drops)).length : Int) + 1,
        dpu_rank :=
          ((db.ranked.filter fun m2 =>
            decide (m.dpu < m2.dpu ∧ 100 < m2.drops)).length : Int) + 1,
        dps_rank :=
          ((db.ranked.filter fun m2 =>
            decide (m.dps < m2.dps ∧ 100 < m2.drops)).length : Int) + 1,
        dpg_rank :=
          ((db.ranked.filter fun m2 =>
            decide (m.dpg < m2.dpg ∧ 100 < m2.drops)).length : Int) + 1 } ∧
    (∀ (rk : List RankedRow) (v w : ℚ), v = w → dpuRankOf rk v = dpuRankOf rk w) := by
  constructor
  · simp [stats_for_user, rankedStatsQuery, rawStatsQuery, fetchOne, hc, he, habs, hm, hn,
      hnm, dropsRankOf, dpuRankOf, dpsRankOf, dpgRankOf, rankCount, Bool.decide_and]
  · intro rk v w h
    rw [h]

/-- Ranked view row of the C4 witness database: well above threshold. -/
def r4a : RankedRow :=
  { steam_id := sidOf 11, name := "P1", drops := 300, ubers := 30, games := 20,
    medic_time := 600, drops_rank := 1, dpu_rank := 1, dps_rank := 1, dpg_rank := 1,
    dpu := 10, dps := Rat.divInt 1 2, dpg := 15 }

/-- Ranked view row of the C4 witness database: above threshold, with a
drops-per-uber value equal to the subject (a tie, not counted). -/
def r4b : RankedRow :=
  { steam_id := sidOf 12, name := "P2", drops := 150, ubers := 30, games := 20,
    medic_time := 600, drops_rank := 2, dpu_rank := 2, dps_rank := 2, dpg_rank := 2,
    dpu := 5, dps := Rat.divInt 1 4, dpg := Rat.divInt 15 2 }

/-- Ranked view row of the C4 witness database: below the 100-drop
threshold, so never counted by the rank subqueries. -/
def r4c : RankedRow :=
  { steam_id := sidOf 13, name := "P3", drops := 90, ubers := 2, games := 2,
    medic_time := 60, drops_rank := 3, dpu_rank := 3, dps_rank := 3, dpg_rank := 3,
    dpu := 45, dps := Rat.divInt 3 2, dpg := 45 }

/-- Raw stats row of the C4 witness subject. -/
def m4 : MedicRow :=
  { steam_id := sidOf 14, drops := 100, ubers := 20, games := 10, medic_time := 500,
    dpu := 5, dps := Rat.divInt 1 5, dpg := 10 }

/-- Name row of the C4 witness subject. -/
def n4 : NameRow := { steam_id := sidOf 14, name := some "P4" }

/-- The C4 witness database: no cheap view row for the subject, raw row
present, no faults. -/
def db4 : Db :=
  { ranked := [r4a, r4b, r4c], medicStats := [m4], userNames := [n4],
    vanityUrls := [], medicNamesRows := fun _ => [], faults := fun _ => false }

set_option maxRecDepth 8192 in
/-- Witness for C4 at a concrete database: the expensive path produces
ranks 3, 2, 3, 2 for the subject (the below-threshold row is never
counted and the tied drops-per-uber row is not counted either). -/
theorem C4_witness :
    stats_for_user db4 (sidOf 14) = .ok
      { steam_id := sidOf 14, name := "P4", drops := 100, ubers := 20, games := 10,
        medic_time := 500, drops_rank := 3, dpu_rank := 2, dps_rank := 3, dpg_rank := 2 } :=
  ((C4_expensive_rank_formula db4 (sidOf 14) m4 n4 "P4" rfl rfl
      (by with_unfolding_all decide) (by with_unfolding_all decide)
      (by with_unfolding_all decide) rfl).1).trans
    (by with_unfolding_all decide)

/-- Claim C8: each ordering is its own cache key (the key mapping is
injective on orderings), a miss runs a compute closure that issues exactly
one query, and in absence of store faults the query result is the ranked
view sorted descending by the metric of that ordering, truncated to at
most 25 entries. -/
theorem C8_leaderboard (db : Db) (order : TopOrder) :
    (top_stats_query db order).2 = 1 ∧
    (∀ o₁ o₂ : TopOrder, topCacheKey o₁ = topCacheKey o₂ → o₁ = o₂) ∧
    (db.faults .topStats = false →
      (top_stats_query db order).1 =
        .ok (((sortDescBy (topMetric order) db.ranked).take 25).map toTopStats) ∧
      ∀ l, (top_stats_query db order).1 = .ok l →
        l.length ≤ 25 ∧
        ∃ rows : List RankedRow, l = rows.map toTopStats ∧
          rows.Pairwise (fun a b => topMetric order b ≤ topMetric order a)) := by
  refine ⟨by cases order <;> rfl, fun o₁ o₂ h => h, ?_⟩
  intro hf
  have hq : (top_stats_query db order).1 =
      .ok (((sortDescBy (topMetric order) db.ranked).take 25).map toTopStats) := by
    cases order <;> simp [top_stats_query, topQueryOnce, hf]
  refine ⟨hq, ?_⟩
  intro l hl
  rw [hq] at hl
  injection hl with hl2
  subst hl2
  constructor
  · rw [List.length_map, List.length_take]
    exact min_le_left _ _
  · exact ⟨(sortDescBy (topMetric order) db.ranked).take 25, rfl,
      List.Pairwise.sublist (List.take_sublist _ _) (sortDescBy_pairwise _ _)⟩

/-- The C8 witness database: two ranked view rows, no faults. -/
def db8 : Db :=
  { ranked :=
      [{ steam_id := sidOf 15, name := "T1", drops := 100, ubers := 10, games := 10,
         medic_time := 600, drops_rank := 2, dpu_rank := 2, dps_rank := 2, dpg_rank := 2,
         dpu := 10, dps := Rat.divInt 1 6, dpg := 10 },
       { steam_id := sidOf 16, name := "T2", drops := 200, ubers := 10, games := 10,
         medic_time := 600, drops_rank := 1, dpu_rank := 1, dps_rank := 1, dpg_rank := 1,
         dpu := 20, dps := Rat.divInt 1 3, dpg := 20 }],
    medicStats := [], userNames := [], vanityUrls := [],
    medicNamesRows := fun _ => [], faults := fun _ => false }

/-- Witness for C8 at a concrete database and the drops-per-second
ordering. -/
theorem C8_witness :
    (top_stats_query db8 TopOrder.Dps).2 = 1 ∧
    (top_stats_query db8 TopOrder.Dps).1 =
      .ok (((sortDescBy (topMetric TopOrder.Dps) db8.ranked).take 25).map toTopStats) :=
  ⟨(C8_leaderboard db8 TopOrder.Dps).1, ((C8_leaderboard db8 TopOrder.Dps).2.2 rfl).1⟩

theorem findVanity_append (l : List (String × SteamId)) (url : String) (id : SteamId)
    (h : findVanity l url = none) : findVanity (l ++ [(url, id)]) url = some id := by
  induction l with
  | nil => simp [findVanity]
  | cons p ps ih =>
    simp only [findVanity] at h
    simp only [List.cons_append, findVanity]
    by_cases hp : p.1 = url
    · rw [if_pos hp] at h; cases h
    · rw [if_neg hp] at h
      rw [if_neg hp]
      exact ih h

/-- Claim C7: with a non-faulting store, a persisted token resolves without
invoking the external resolver; an unmapped token with a resolver hit
inserts exactly one mapping row, returns the identity, and a subsequent
call returns it without a second resolver invocation; a resolver miss
returns none as a non-error outcome and inserts nothing. -/
theorem C7_vanity_resolution (db : Db) (res : String → Except ResolveErr (Option SteamId))
    (url : String) (id : SteamId)
    (hsel : db.faults .vanitySelect = false)
    (hins : db.faults .vanityInsert = false) :
    (findVanity db.vanityUrls url = some id →
      resolve_vanity_url db res url = ⟨.ok (some id), db, 0⟩) ∧
    (findVanity db.vanityUrls url = none → res url = .ok (some id) →
      resolve_vanity_url db res url =
        ⟨.ok (some id), { db with vanityUrls := db.vanityUrls ++ [(url, id)] }, 1⟩ ∧
      resolve_vanity_url { db with vanityUrls := db.vanityUrls ++ [(url, id)] } res url =
        ⟨.ok (some id), { db with vanityUrls := db.vanityUrls ++ [(url, id)] }, 0⟩) ∧
    (findVanity db.vanityUrls url = none → res url = .ok none →
      resolve_vanity_url db res url = ⟨.ok none, db, 1⟩) := by
  refine ⟨?_, ?_, ?_⟩
  · intro hfind
    simp [resolve_vanity_url, vanitySelectQuery, fetchOne, hsel, hfind]
  · intro hfind hres
    constructor
    · simp [resolve_vanity_url, vanitySelectQuery, fetchOne, hsel, hfind, hres, hins]
    · have h2 : findVanity (db.vanityUrls ++ [(url, id)]) url = some id :=
        findVanity_append _ _ _ hfind
      simp [resolve_vanity_url, vanitySelectQuery, fetchOne, hsel, h2]
  · intro hfind hres
    simp [resolve_vanity_url, vanitySelectQuery, fetchOne, hsel, hfind, hres]

/-- The C7 witness database: one persisted vanity mapping, no faults. -/
def db7 : Db :=
  { ranked := [], medicStats := [], userNames := [],
    vanityUrls := [("cached", sidOf 7)],
    medicNamesRows := fun _ => [], faults := fun _ => false }

/-- The C7 witness resolver: hit for one token, miss for the rest. -/
def res7 : String → Except ResolveErr (Option SteamId) :=
  fun u => if u = "new" then .ok (some (sidOf 8)) else .ok none

set_option maxRecDepth 8192 in
/-- Witness for C7 at a concrete store and resolver. -/
theorem C7_witness :
    resolve_vanity_url db7 res7 "cached" = ⟨.ok (some (sidOf 7)), db7, 0⟩ ∧
    resolve_vanity_url db7 res7 "new" =
      ⟨.ok (some (sidOf 8)), { db7 with vanityUrls := db7.vanityUrls ++ [("new", sidOf 8)] }, 1⟩ ∧
    resolve_vanity_url db7 res7 "missing" = ⟨.ok none, db7, 1⟩ :=
  ⟨(C7_vanity_resolution db7 res7 "cached" (sidOf 7) rfl rfl).1 (by decide),
   ((C7_vanity_resolution db7 res7 "new" (sidOf 8) rfl rfl).2.1 (by decide) (by decide)).1,
   (C7_vanity_resolution db7 res7 "missing" (sidOf 7) rfl rfl).2.2 (by decide) (by decide)⟩

/-- Ranked view row of the C2 counterexample: the cheap row for the
subject exists, so only the injected fault makes the cheap read fail. -/
def row2r : RankedRow :=
  { steam_id := sidOf 22, name := "C2", drops := 200, ubers := 10, games := 10,
    medic_time := 600, drops_rank := 1, dpu_rank := 1, dps_rank := 1, dpg_rank := 1,
    dpu := 20, dps := Rat.divInt 1 3, dpg := 20 }

/-- Raw stats row of the C2 counterexample subject. -/
def row2m : MedicRow :=
  { steam_id := sidOf 22, drops := 50, ubers := 5, games := 5, medic_time := 100,
    dpu := 10, dps := Rat.divInt 1 2, dpg := 10 }

/-- Name row of the C2 counterexample subject. -/
def name2 : NameRow := { steam_id := sidOf 22, name := some "C2" }

/-- The C2 counterexample database: cheap stats read and vanity lookup
fault; everything the fallbacks need is present. -/
def db2 : Db :=
  { ranked := [row2r], medicStats := [row2m], userNames := [name2],
    vanityUrls := [("tok", sidOf 23)],
    medicNamesRows := fun _ => [],
    faults := fun s =>
      match s with
      | .rankedStats => true
      | .vanitySelect => true
      | _ => false }

/-- The C2 counterexample resolver: always resolves to a fresh identity,
distinct from the persisted one. -/
def res2 : String → Except ResolveErr (Option SteamId) := fun _ => .ok (some (sidOf 24))

set_option maxRecDepth 8192 in
/-- Claim C2 is false as stated: a fault on the cheap precomputed-view
read does not propagate — the call falls back to the expensive path and
returns its result — and a fault on the persisted-mapping lookup does not
propagate either: the external resolver is invoked although the mapping
row exists, and its (different) identity is returned. -/
theorem C2_counterexample :
    db2.faults .rankedStats = true ∧
    findRanked db2.ranked (sidOf 22) = some row2r ∧
    stats_for_user db2 (sidOf 22) = .ok
      { steam_id := sidOf 22, name := "C2", drops := 50, ubers := 5, games := 5,
        medic_time := 100, drops_rank := 2, dpu_rank := 2, dps_rank := 1, dpg_rank := 2 } ∧
    db2.faults .vanitySelect = true ∧
    findVanity db2.vanityUrls "tok" = some (sidOf 23) ∧
    (resolve_vanity_url db2 res2 "tok").resolverCalls = 1 ∧
    (resolve_vanity_url db2 res2 "tok").result = .ok (some (sidOf 24)) := by
  with_unfolding_all decide

/-- Claim C2 amended: any error of the cheap precomputed-view read —
absence or fault alike — triggers the expensive-path fallback, and any
error of the persisted-mapping lookup triggers the external-resolver
call; faults of the expensive query and of the resolver itself propagate
unchanged to the caller. -/
theorem C2_amended (db : Db) (id : SteamId)
    (res : String → Except ResolveErr (Option SteamId)) (url : String) :
    (∀ e, rankedStatsQuery db id = .error e → stats_for_user db id = rawStatsQuery db id) ∧
    (∀ e, vanitySelectQuery db url = .error e →
      (resolve_vanity_url db res url).resolverCalls = 1) ∧
    (∀ e re, vanitySelectQuery db url = .error e → res url = .error re →
      resolve_vanity_url db res url = ⟨.error (.steam re), db, 1⟩) ∧
    (∀ e, rankedStatsQuery db id = .error e → db.faults .rawStats = true →
      stats_for_user db id = .error .fault) := by
  refine ⟨?_, ?_, ?_, ?_⟩
  · intro e h
    simp [stats_for_user, h]
  · intro e h
    unfold resolve_vanity_url
    rw [h]
    dsimp only
    cases hres : res url with
    | error re => rfl
    | ok o =>
      cases o with
      | none => rfl
      | some i =>
        dsimp only
        by_cases hi : db.faults .vanityInsert = true
        · rw [if_pos hi]
        · rw [if_neg hi]
  · intro e re h hres
    simp [resolve_vanity_url, h, hres]
  · intro e h hf
    simp [stats_for_user, h, rawStatsQuery, fetchOne, hf]

set_option maxRecDepth 8192 in
/-- Witness for C2 at the concrete faulting store: the faulting cheap read
falls back to the expensive query, and the faulting mapping lookup invokes
the resolver once. -/
theorem C2_witness :
    stats_for_user db2 (sidOf 22) = rawStatsQuery db2 (sidOf 22) ∧
    (resolve_vanity_url db2 res2 "tok").resolverCalls = 1 :=
  ⟨(C2_amended db2 (sidOf 22) res2 "tok").1 .fault (by with_unfolding_all decide),
   (C2_amended db2 (sidOf 22) res2 "tok").2.1 .fault (by with_unfolding_all decide)⟩

/-- The C3 parse oracle: exactly one input text parses. -/
def parse3 : String → Option SteamId :=
  fun s => if s = "[U:1:31]" then some (sidOf 31) else none

/-- Fuzzy row returned by the C3 counterexample store. -/
def c3w : SearchResult := { steam_id := sidOf 32, name := "zz", count := 3, sim := 1 }

/-- The C3 counterexample database: no user_names row (an absence, not a
fault), while the fuzzy query would return a row. -/
def db3 : Db :=
  { ranked := [], medicStats := [], userNames := [], vanityUrls := [],
    medicNamesRows := fun _ => [c3w], faults := fun _ => false }

set_option maxRecDepth 8192 in
/-- Claim C3 is false as stated: when the text parses but the exact name
row is absent (a miss, not a fault), the search does not run the fuzzy
path — the row-not-found error of the exact lookup propagates to the
caller. -/
theorem C3_counterexample :
    parse3 "[U:1:31]" = some (sidOf 31) ∧
    userNameQuery db3 (sidOf 31) = .error .rowNotFound ∧
    player_search parse3 db3 "[U:1:31]" = .error (.database .rowNotFound) ∧
    player_wildcard_search db3 "[U:1:31]" = .ok [c3w] ∧
    player_search parse3 db3 "[U:1:31]" ≠ player_wildcard_search db3 "[U:1:31]" := by
  with_unfolding_all decide

/-- Claim C3 amended: if the text does not parse, the fuzzy path runs; if
it parses and the exact lookup errors (absence or fault alike), that error
propagates and the fuzzy path is not run; if it parses and the name row
exists with a NULL name, the fuzzy path runs; if it parses and the name
row carries a name, exactly one synthetic result with that identity and
name, similarity 1 and count 1 is returned. -/
theorem C3_amended (parse : String → Option SteamId) (db : Db) (s : String) :
    (parse s = none → player_search parse db s = player_wildcard_search db s) ∧
    (∀ id e, parse s = some id → userNameQuery db id = .error e →
      player_search parse db s = .error (.database e)) ∧
    (∀ id row, parse s = some id → userNameQuery db id = .ok row → row.name = none →
      player_search parse db s = player_wildcard_search db s) ∧
    (∀ id row nm, parse s = some id → userNameQuery db id = .ok row → row.name = some nm →
      player_search parse db s =
        .ok [{ steam_id := id, name := nm, count := 1, sim := 1 }]) := by
  refine ⟨?_, ?_, ?_, ?_⟩
  · intro hp
    simp [player_search, hp]
  · intro id e hp hq
    simp [player_search, hp, get_user_name, hq]
  · intro id row hp hq hname
    simp [player_search, hp, get_user_name, hq, hname]
  · intro id row nm hp hq hname
    simp [player_search, hp, get_user_name, hq, hname]

/-- The C3 witness database: the exact name row exists and carries a
name. -/
def db3w : Db :=
  { ranked := [], medicStats := [],
    userNames := [{ steam_id := sidOf 31, name := some "Bob" }],
    vanityUrls := [], medicNamesRows := fun _ => [], faults := fun _ => false }

set_option maxRecDepth 8192 in
/-- Witness for C3 at a concrete store: the exact hit short-circuits into
one synthetic result with similarity 1 and count 1. -/
theorem C3_witness :
    player_search parse3 db3w "[U:1:31]" =
      .ok [{ steam_id := sidOf 31, name := "Bob", count := 1, sim := 1 }] :=
  (C3_amended parse3 db3w "[U:1:31]").2.2.2 (sidOf 31)
    { steam_id := sidOf 31, name := some "Bob" } "Bob"
    (by decide) (by decide) rfl

end DropsTf
